import Mathlib

/-!
Shallow embedding of the ByteSer chat backend (TypeScript handlers over a
relational store) together with proofs about its specified behaviour.

Strings are modelled as `List Char`, timestamps as `Nat` (milliseconds),
and the database as an in-memory `Store` of rows.  Each handler is a pure
function translated statement-by-statement from the corresponding
TypeScript source; external primitives (the PBKDF2 key-derivation function,
random salts and session tokens, the current time) are passed in as
parameters.
-/

namespace ByteSer

abbrev Str := List Char

/-- Character-wise lower-casing, modelling the case folding SQL `ILIKE`
applies to both operands. -/
def lowerStr (s : Str) : Str := s.map Char.toLower

/-- JavaScript `String.prototype.trim()`: drop leading and trailing
whitespace. -/
def jsTrim (s : Str) : Str :=
  ((s.dropWhile Char.isWhitespace).reverse.dropWhile Char.isWhitespace).reverse

/-- Truthiness of an optional JavaScript string: `undefined`, `null` and the
empty string are falsy. -/
def jsFalsyOptStr : Option Str → Bool
  | none => true
  | some s => s.isEmpty

/-- JavaScript `x || null` on an optional string (`input.avatar_url || null`
and similar): a falsy value becomes `null`, anything else is kept. -/
def jsOrNullStr (s : Option Str) : Option Str :=
  if jsFalsyOptStr s then none else s

/-- SQL `LIKE` pattern matching on lower-cased data.  `%` matches any
sequence, `_` any single character, and a backslash escapes the following
character.  The first argument is the pattern, the second the subject. -/
def likeMatch : Str → Str → Bool
  | [], s => s.isEmpty
  | '%' :: ps, s => s.tails.any (fun t => likeMatch ps t)
  | '_' :: ps, s =>
    match s with
    | [] => false
    | _ :: s' => likeMatch ps s'
  | '\\' :: c :: ps, s =>
    match s with
    | [] => false
    | d :: s' => (d == c) && likeMatch ps s'
  | ['\\'], _ => false
  | c :: ps, s =>
    match s with
    | [] => false
    | d :: s' => (d == c) && likeMatch ps s'

/-- PostgreSQL `subject ILIKE pattern`: case-insensitive `LIKE`. -/
def sqlIlike (s pat : Str) : Bool := likeMatch (lowerStr pat) (lowerStr s)

/-- Row of the `users` table (`db/schema.ts`). -/
structure User where
  id : Nat
  email : Str
  password_hash : Option Str
  display_name : Str
  avatar_url : Option Str
  google_id : Option Str
  is_active : Bool
  created_at : Nat
  updated_at : Nat
deriving DecidableEq

/-- Row of the `user_sessions` table. -/
structure UserSession where
  id : Nat
  user_id : Nat
  session_token : Str
  expires_at : Nat
  created_at : Nat
deriving DecidableEq

/-- Row of the `conversations` table. -/
structure Conversation where
  id : Nat
  user_id : Nat
  title : Str
  created_at : Nat
  updated_at : Nat
deriving DecidableEq

/-- A `{title, url, snippet}` citation object embedded in a message's
`sources` JSONB column. -/
structure ResearchSource where
  title : Str
  url : Str
  snippet : Str
deriving DecidableEq

/-- Row of the `messages` table. -/
structure Message where
  id : Nat
  conversation_id : Nat
  content : Str
  role : Str
  sources : Option (List ResearchSource)
  created_at : Nat
deriving DecidableEq

/-- The relational store, plus the serial-id counters of the tables the
modelled handlers insert into. -/
structure Store where
  users : List User
  sessions : List UserSession
  conversations : List Conversation
  messages : List Message
  nextUserId : Nat
  nextSessionId : Nat
  nextMessageId : Nat
deriving DecidableEq

/-- The distinguishable error messages thrown by the modelled handlers,
one constructor per `throw new Error(...)` site text. -/
inductive Err where
  /-- `User with this email already exists` -/
  | emailExists
  /-- `Invalid email or password` -/
  | invalidCredentials
  /-- `User account is deactivated` -/
  | accountDeactivated
  /-- `This account uses Google sign-in. Please use Google to login.` -/
  | usesGoogleSignIn
  /-- `Conversation not found or access denied` -/
  | conversationNotFoundOrAccessDenied
  /-- `Failed to update conversation` -/
  | failedToUpdate
  /-- `Conversation not found` -/
  | conversationNotFound
  /-- `Conversation with id N not found` -/
  | conversationWithIdNotFound (id : Nat)
deriving DecidableEq

/-- Input of `createUser` (`CreateUserInput`). -/
structure CreateUserInput where
  email : Str
  password : Option Str
  display_name : Str
  avatar_url : Option Str
  google_id : Option Str
deriving DecidableEq

/-- `handlers/create_user.ts`: reject a duplicate email; if a (truthy)
password is supplied, derive `salt:hash` with
`pbkdf2Sync(password, salt, 10000, 64, 'sha512')`; insert the user with
`is_active := true`.  The key-derivation function and the random salt are
external primitives and are passed as parameters; `pbkdf2 p s` stands for
the hex encoding of `pbkdf2Sync(p, s, 10000, 64, 'sha512')`. -/
def createUser (pbkdf2 : Str → Str → Str) (salt : Str) (now : Nat)
    (store : Store) (input : CreateUserInput) : Except Err (Store × User) :=
  if 0 < (store.users.filter (fun u => u.email == input.email)).length then
    .error .emailExists
  else
    let password_hash : Option Str :=
      match input.password with
      | some p => if p.isEmpty then none else some (salt ++ ':' :: pbkdf2 p salt)
      | none => none
    let u : User :=
      { id := store.nextUserId
        email := input.email
        password_hash := password_hash
        display_name := input.display_name
        avatar_url := jsOrNullStr input.avatar_url
        google_id := jsOrNullStr input.google_id
        is_active := true
        created_at := now
        updated_at := now }
    .ok ({ store with users := store.users ++ [u], nextUserId := store.nextUserId + 1 }, u)

/-- Input of `loginUser` (`LoginInput`). -/
structure LoginInput where
  email : Str
  password : Str
deriving DecidableEq

/-- 24 hours in milliseconds (`24 * 60 * 60 * 1000`). -/
def sessionDurationMs : Nat := 24 * 60 * 60 * 1000

/-- `login_user.ts`: look the user up by email; reject unknown email,
inactive account, and missing (falsy) password hash; then compare
`user.password_hash !== input.password` by plain string equality; on
success insert a session expiring 24 hours from now.  The random session
token is passed as a parameter. -/
def loginUser (token : Str) (now : Nat) (store : Store) (input : LoginInput) :
    Except Err (Store × UserSession) :=
  match store.users.filter (fun u => u.email == input.email) with
  | [] => .error .invalidCredentials
  | user :: _ =>
    if !user.is_active then .error .accountDeactivated
    else if jsFalsyOptStr user.password_hash then .error .usesGoogleSignIn
    else if user.password_hash != some input.password then .error .invalidCredentials
    else
      let s : UserSession :=
        { id := store.nextSessionId
          user_id := user.id
          session_token := token
          expires_at := now + sessionDurationMs
          created_at := now }
      let store2 : Store :=
        { store with sessions := store.sessions ++ [s], nextSessionId := store.nextSessionId + 1 }
      .ok (store2, s)

/-- `validate_session.ts`: join `user_sessions` with `users` on
`user_id = users.id`, keep rows with the given token, `expires_at > now`
(strict) and an active user, and return the user of the first row, or
`null` when there is none. -/
def validateSession (now : Nat) (store : Store) (token : Str) : Option User :=
  match (store.sessions.flatMap (fun s =>
      (store.users.filter (fun u => u.id == s.user_id)).map (fun u => (s, u)))).filter
      (fun r => r.1.session_token == token && decide (now < r.1.expires_at) && r.2.is_active) with
  | [] => none
  | r :: _ => some r.2

/-- `get_user_profile.ts` (real implementation): select the user by id with
`limit 1` and return the full row — including `password_hash` — or `null`. -/
def getUserProfile (store : Store) (userId : Nat) : Option User :=
  match store.users.filter (fun u => u.id == userId) with
  | [] => none
  | u :: _ => some u

/-- JavaScript `Map.prototype.set` on an association list keyed by
conversation id: an existing key has its value replaced in place, a new key
is appended. -/
def jsMapSet (m : List (Nat × Conversation)) (k : Nat) (v : Conversation) :
    List (Nat × Conversation) :=
  if m.any (fun e => e.1 == k) then
    m.map (fun e => if e.1 == k then (k, v) else e)
  else m ++ [(k, v)]

/-- `allMatches.forEach(c => uniqueConversations.set(c.id, c))` from
`searchConversations`. -/
def buildConvMap (pairs : List Conversation) : List (Nat × Conversation) :=
  pairs.foldl (fun m c => jsMapSet m c.id c) []

/-- Descending order on `updated_at`, the order produced by
`results.sort((a, b) => b.updated_at.getTime() - a.updated_at.getTime())`. -/
def convGE (a b : Conversation) : Prop := b.updated_at ≤ a.updated_at

instance : DecidableRel convGE := fun a b =>
  inferInstanceAs (Decidable (b.updated_at ≤ a.updated_at))

instance : IsTotal Conversation convGE :=
  ⟨fun a b => Nat.le_total b.updated_at a.updated_at⟩

instance : IsTrans Conversation convGE :=
  ⟨fun _ _ _ hab hbc => Nat.le_trans hbc hab⟩

/-- `search_conversations.ts` (real implementation): empty trimmed query
returns `[]`; otherwise build the pattern `%trim(query)%`, collect the
user's conversations whose title matches it (`ILIKE`), and the user's
conversations joined with a message whose content matches it; concatenate,
deduplicate by id through a JavaScript `Map`, and sort by `updated_at`
descending. -/
def searchConversations (store : Store) (userId : Nat) (query : Str) :
    List Conversation :=
  if (jsTrim query).isEmpty then []
  else
    let searchPattern : Str := '%' :: (jsTrim query ++ ['%'])
    let titleMatches := store.conversations.filter
      (fun c => c.user_id == userId && sqlIlike c.title searchPattern)
    let joined := store.conversations.flatMap (fun c =>
      (store.messages.filter (fun m => m.conversation_id == c.id)).map (fun m => (c, m)))
    let messageMatches := (joined.filter
      (fun r => r.1.user_id == userId && sqlIlike r.2.content searchPattern)).map Prod.fst
    let allMatches := titleMatches ++ messageMatches
    let results := (buildConvMap allMatches).map Prod.snd
    List.insertionSort convGE results

/-- `delete_conversation.ts` (in `google_auth.ts`'s file group): delete the
conversation rows with the given id and owner, let the schema's
`onDelete: 'cascade'` remove their messages, and report whether any row was
deleted. -/
def deleteConversation (store : Store) (conversationId userId : Nat) :
    Store × Bool :=
  let deleted := store.conversations.filter
    (fun c => c.id == conversationId && c.user_id == userId)
  let remaining := store.conversations.filter
    (fun c => !(c.id == conversationId && c.user_id == userId))
  let deletedIds := deleted.map Conversation.id
  let messages := store.messages.filter
    (fun m => !(deletedIds.contains m.conversation_id))
  ({ store with conversations := remaining, messages := messages },
    decide (0 < deleted.length))

/-- Input of `updateConversation` (`UpdateConversationInput`); `none` title
models an omitted `title` field. -/
structure UpdateConversationInput where
  id : Nat
  title : Option Str
deriving DecidableEq

/-- `update_conversation.ts` (real implementation): select the conversation
by id and owner together; throw `Conversation not found or access denied`
when that yields nothing; otherwise refresh `updated_at` (always) and the
title (when provided) and return the updated row. -/
def updateConversation (now : Nat) (store : Store)
    (input : UpdateConversationInput) (userId : Nat) :
    Except Err (Store × Conversation) :=
  let existing := store.conversations.filter
    (fun c => c.id == input.id && c.user_id == userId)
  if existing.isEmpty then .error .conversationNotFoundOrAccessDenied
  else
    let updatedConversations := store.conversations.map (fun c =>
      if c.id == input.id && c.user_id == userId then
        { c with title := input.title.getD c.title, updated_at := now }
      else c)
    match updatedConversations.filter
        (fun c => c.id == input.id && c.user_id == userId) with
    | [] => .error .failedToUpdate
    | c :: _ => .ok ({ store with conversations := updatedConversations }, c)

/-- The `sources` field of a `createMessage` input as a JavaScript value:
omitted (`undefined`), `null`, or an array. -/
inductive SourcesInput where
  | undef
  | nullv
  | arr (l : List ResearchSource)
deriving DecidableEq

/-- JavaScript `input.sources || null`: `undefined` and `null` are falsy
and become `null`; every array — the empty array included — is truthy and
is kept as is. -/
def jsSourcesOrNull : SourcesInput → Option (List ResearchSource)
  | .undef => none
  | .nullv => none
  | .arr l => some l

/-- Input of `createMessage` (`CreateMessageInput`). -/
structure CreateMessageInput where
  conversation_id : Nat
  content : Str
  role : Str
  sources : SourcesInput
deriving DecidableEq

/-- `create_message.ts` (real implementation): throw when the conversation
id matches no conversation; otherwise insert the message with
`sources: input.sources || null` and return it. -/
def createMessage (now : Nat) (store : Store) (input : CreateMessageInput) :
    Except Err (Store × Message) :=
  if (store.conversations.filter (fun c => c.id == input.conversation_id)).isEmpty then
    .error (.conversationWithIdNotFound input.conversation_id)
  else
    let msg : Message :=
      { id := store.nextMessageId
        conversation_id := input.conversation_id
        content := input.content
        role := input.role
        sources := jsSourcesOrNull input.sources
        created_at := now }
    let store2 : Store :=
      { store with messages := store.messages ++ [msg],
                   nextMessageId := store.nextMessageId + 1 }
    .ok (store2, msg)

/-- Input of `aiChatResearch` (`AiChatRequest`). -/
structure AiChatRequest where
  conversation_id : Nat
  message : Str
  enable_research : Bool
deriving DecidableEq

/-- The hardcoded mock sources of `ai_chat_research.ts`. -/
def mockResearchSources : List ResearchSource :=
  [ { title := "Research Result 1".data
      url := "https://example.com/research1".data
      snippet := "Relevant information from research source 1 related to the user query.".data }
  , { title := "Research Result 2".data
      url := "https://example.com/research2".data
      snippet := "Additional context from research source 2 that supports the AI response.".data } ]

/-- The assistant reply text of `ai_chat_research.ts` (template literal
around the user message). -/
def aiResponseContent (enableResearch : Bool) (message : Str) : Str :=
  if enableResearch then
    "Based on research findings, here\x27s a comprehensive response to \"".data ++ message ++
      "\": The available research suggests multiple approaches to this topic. Key insights from current sources indicate relevant patterns and best practices that can guide decision-making.".data
  else
    "Here\x27s my response to \"".data ++ message ++
      "\": I\x27ll provide you with helpful information based on my training, though without additional research context.".data

/-- `ai_chat_research.ts` (real implementation): join the conversation with
its owning user; when that yields nothing, throw `Conversation not found`
before writing anything; otherwise insert the user message (null sources),
build the mock research sources when research is enabled (`null`
otherwise), insert the assistant message carrying them, and return it.
The pair result keeps the store explicit: an error leaves it unchanged. -/
def aiChatResearch (now : Nat) (store : Store) (input : AiChatRequest) :
    Store × Except Err Message :=
  let rows := (store.conversations.flatMap (fun c =>
    (store.users.filter (fun u => u.id == c.user_id)).map (fun u => (c, u)))).filter
    (fun r => r.1.id == input.conversation_id)
  if rows.isEmpty then (store, .error .conversationNotFound)
  else
    let userMsg : Message :=
      { id := store.nextMessageId
        conversation_id := input.conversation_id
        content := input.message
        role := "user".data
        sources := none
        created_at := now }
    let store1 : Store :=
      { store with messages := store.messages ++ [userMsg],
                   nextMessageId := store.nextMessageId + 1 }
    let researchSources : Option (List ResearchSource) :=
      if input.enable_research then some mockResearchSources else none
    let assistantMsg : Message :=
      { id := store1.nextMessageId
        conversation_id := input.conversation_id
        content := aiResponseContent input.enable_research input.message
        role := "assistant".data
        sources := researchSources
        created_at := now }
    let store2 : Store :=
      { store1 with messages := store1.messages ++ [assistantMsg],
                    nextMessageId := store1.nextMessageId + 1 }
    (store2, .ok assistantMsg)

/-! ### Helper lemmas -/

/-- A string made of whitespace only trims to the empty string. -/
theorem jsTrim_eq_nil_of_whitespace {q : Str} (h : ∀ c ∈ q, c.isWhitespace) :
    jsTrim q = [] := by
  unfold jsTrim
  have h1 : q.dropWhile Char.isWhitespace = [] := List.dropWhile_eq_nil_iff.mpr h
  simp [h1]

/-- Two members of a list whose image under `key` has no duplicates are
equal as soon as their keys are. -/
theorem eq_of_nodup_key {α β : Type} (key : α → β) {l : List α}
    (hn : (l.map key).Nodup) {a b : α} (ha : a ∈ l) (hb : b ∈ l)
    (hk : key a = key b) : a = b := by
  induction l with
  | nil => cases ha
  | cons x t ih =>
    rw [List.map_cons, List.nodup_cons] at hn
    rcases List.mem_cons.mp ha with rfl | ha'
    · rcases List.mem_cons.mp hb with rfl | hb'
      · rfl
      · exact absurd (hk ▸ List.mem_map_of_mem key hb') hn.1
    · rcases List.mem_cons.mp hb with rfl | hb'
      · exact absurd (hk ▸ List.mem_map_of_mem key ha') hn.1
      · exact ih hn.2 ha' hb'

/-- Filtering a key-`Nodup` list for the key of one of its members yields
exactly that member. -/
theorem filter_key_eq_singleton {α : Type} [DecidableEq α] {β : Type}
    [DecidableEq β] (key : α → β) {l : List α}
    (hn : (l.map key).Nodup) {a : α} (ha : a ∈ l) :
    l.filter (fun x => key x == key a) = [a] := by
  induction l with
  | nil => cases ha
  | cons x t ih =>
    rw [List.map_cons, List.nodup_cons] at hn
    rcases List.mem_cons.mp ha with rfl | ha'
    · rw [List.filter_cons_of_pos (by simp)]
      have ht : t.filter (fun x => key x == key a) = [] := by
        rw [List.filter_eq_nil_iff]
        intro b hb hkey
        exact hn.1 (by simpa using ⟨b, hb, beq_iff_eq.mp hkey⟩)
      rw [ht]
    · have hxa : ¬ key x = key a := by
        intro hkey
        exact hn.1 (hkey ▸ List.mem_map_of_mem key ha')
      rw [List.filter_cons_of_neg (by simpa using hxa)]
      exact ih hn.2 ha'

/-! ### C4: empty / whitespace-only search query -/

/-- C4: for every user id and every query that is empty or consists only of
whitespace, `searchConversations` returns the empty list, regardless of the
users, conversations and messages in the store. -/
theorem searchConversations_whitespace_query_empty
    (store : Store) (userId : Nat) (q : Str)
    (h : ∀ c ∈ q, c.isWhitespace) :
    searchConversations store userId q = [] := by
  unfold searchConversations
  simp [jsTrim_eq_nil_of_whitespace h]

/-- A store with one user, one conversation and one message, used to
instantiate theorems about search and session validation. -/
def sampleStore : Store :=
  { users := [{ id := 2, email := "b@x.com".data, password_hash := some "abc:def".data,
                display_name := "Bala".data, avatar_url := none, google_id := none,
                is_active := true, created_at := 0, updated_at := 0 }]
    sessions := [{ id := 1, user_id := 2, session_token := "tok".data,
                   expires_at := 100, created_at := 0 }]
    conversations := [{ id := 5, user_id := 2, title := "Trip planning".data,
                        created_at := 0, updated_at := 10 }]
    messages := [{ id := 1, conversation_id := 5, content := "Where should I go in Japan?".data,
                   role := "user".data, sources := none, created_at := 1 }]
    nextUserId := 3
    nextSessionId := 2
    nextMessageId := 2 }

/-- Witness for C4: a whitespace-only query over a populated store. -/
theorem searchConversations_whitespace_query_empty_witness :
    (∀ c ∈ (" \t ".data : Str), c.isWhitespace) ∧
      searchConversations sampleStore 2 " \t ".data = [] :=
  ⟨by decide, searchConversations_whitespace_query_empty sampleStore 2 _ (by decide)⟩

/-! ### C7: aiChatResearch on a missing conversation writes nothing -/

/-- C7: when no conversation has the requested id, `aiChatResearch` fails
with the conversation-not-found error and the store — in particular the
message table — is exactly the input store: neither the user message nor an
assistant message is persisted. -/
theorem aiChatResearch_missing_conversation_no_write
    (now : Nat) (store : Store) (input : AiChatRequest)
    (h : ∀ c ∈ store.conversations, c.id ≠ input.conversation_id) :
    aiChatResearch now store input = (store, Except.error Err.conversationNotFound) ∧
    (aiChatResearch now store input).1.messages = store.messages := by
  have hrows : ((store.conversations.flatMap fun c =>
      (store.users.filter fun u => u.id == c.user_id).map fun u => (c, u)).filter
      fun r => r.1.id == input.conversation_id) = [] := by
    rw [List.filter_eq_nil_iff]
    intro r hr
    rw [List.mem_flatMap] at hr
    obtain ⟨c, hc, hr⟩ := hr
    rw [List.mem_map] at hr
    obtain ⟨u, _, rfl⟩ := hr
    simpa using h c hc
  have hmain : aiChatResearch now store input = (store, Except.error Err.conversationNotFound) := by
    unfold aiChatResearch
    simp [hrows]
  exact ⟨hmain, by rw [hmain]⟩

/-- Witness for C7: conversation id 99 does not exist in `sampleStore`. -/
theorem aiChatResearch_missing_conversation_no_write_witness :
    (∀ c ∈ sampleStore.conversations, c.id ≠ 99) ∧
      aiChatResearch 7 sampleStore ⟨99, "hello".data, true⟩ =
        (sampleStore, Except.error Err.conversationNotFound) :=
  ⟨by decide,
    (aiChatResearch_missing_conversation_no_write 7 sampleStore ⟨99, "hello".data, true⟩
      (by decide)).1⟩

/-! ### C8: persistence of message sources -/

/-- C8: when the conversation exists, `createMessage` persists the message
(appending it to the message table); an omitted or `null` sources input is
stored as `null`, an explicitly empty array is stored as the empty array —
not coerced to `null` — and a non-empty array is stored as given, as the
single structured `sources` field of the message. -/
theorem createMessage_sources_persistence
    (now : Nat) (store : Store) (input : CreateMessageInput)
    (h : ∃ c ∈ store.conversations, c.id = input.conversation_id) :
    ∃ store2 msg, createMessage now store input = Except.ok (store2, msg) ∧
      store2.messages = store.messages ++ [msg] ∧
      ((input.sources = SourcesInput.undef ∨ input.sources = SourcesInput.nullv) →
        msg.sources = none) ∧
      (input.sources = SourcesInput.arr [] → msg.sources = some []) ∧
      (∀ l, input.sources = SourcesInput.arr l → msg.sources = some l) := by
  obtain ⟨c, hc, hcid⟩ := h
  have hmem : c ∈ store.conversations.filter (fun c => c.id == input.conversation_id) :=
    List.mem_filter.mpr ⟨hc, by simp [hcid]⟩
  have hne : (store.conversations.filter
      (fun c => c.id == input.conversation_id)).isEmpty = false := by
    rw [List.isEmpty_eq_false]
    exact List.ne_nil_of_mem hmem
  refine ⟨{ store with
      messages := store.messages ++
        [{ id := store.nextMessageId, conversation_id := input.conversation_id,
           content := input.content, role := input.role,
           sources := jsSourcesOrNull input.sources, created_at := now }],
      nextMessageId := store.nextMessageId + 1 },
    { id := store.nextMessageId, conversation_id := input.conversation_id,
      content := input.content, role := input.role,
      sources := jsSourcesOrNull input.sources, created_at := now }, ?_, rfl, ?_, ?_, ?_⟩
  · unfold createMessage
    rw [if_neg (by simp [hne])]
  · rintro (h' | h') <;> simp [h', jsSourcesOrNull]
  · intro h'
    simp [h', jsSourcesOrNull]
  · intro l h'
    simp [h', jsSourcesOrNull]

/-- Witness for C8 with an explicitly empty sources array. -/
theorem createMessage_sources_persistence_witness :
    (∃ c ∈ sampleStore.conversations, c.id = 5) ∧
      ∃ store2 msg,
        createMessage 3 sampleStore ⟨5, "hi".data, "user".data, SourcesInput.arr []⟩ =
          Except.ok (store2, msg) ∧
        store2.messages = sampleStore.messages ++ [msg] ∧
        ((SourcesInput.arr ([] : List ResearchSource) = SourcesInput.undef ∨
            SourcesInput.arr ([] : List ResearchSource) = SourcesInput.nullv) →
          msg.sources = none) ∧
        (SourcesInput.arr ([] : List ResearchSource) = SourcesInput.arr [] →
          msg.sources = some []) ∧
        (∀ l, SourcesInput.arr ([] : List ResearchSource) = SourcesInput.arr l →
          msg.sources = some l) :=
  ⟨⟨_, List.mem_cons_self _ _, rfl⟩,
    createMessage_sources_persistence 3 sampleStore
      ⟨5, "hi".data, "user".data, SourcesInput.arr []⟩ ⟨_, List.mem_cons_self _ _, rfl⟩⟩

/-! ### C9: aiChatResearch sources follow the research flag -/

/-- C9: on an existing conversation (with its owning user present, as the
handler's join requires), `aiChatResearch` returns an assistant-role
message; with research disabled its sources are `null`, and with research
enabled it carries a non-empty array of citations, each with a non-empty
title, url and snippet. -/
theorem aiChatResearch_sources_research_flag
    (now : Nat) (store : Store) (input : AiChatRequest)
    (h : ∃ c ∈ store.conversations, c.id = input.conversation_id ∧
      ∃ u ∈ store.users, u.id = c.user_id) :
    ∃ store2 msg, aiChatResearch now store input = (store2, Except.ok msg) ∧
      msg.role = "assistant".data ∧
      (input.enable_research = false → msg.sources = none) ∧
      (input.enable_research = true → ∃ srcs, msg.sources = some srcs ∧
        srcs ≠ [] ∧ ∀ s ∈ srcs, s.title ≠ [] ∧ s.url ≠ [] ∧ s.snippet ≠ []) := by
  obtain ⟨c, hc, hcid, u, hu, huid⟩ := h
  have hmem : (c, u) ∈ (store.conversations.flatMap fun c =>
      (store.users.filter fun u => u.id == c.user_id).map fun u => (c, u)).filter
      (fun r => r.1.id == input.conversation_id) := by
    rw [List.mem_filter]
    refine ⟨List.mem_flatMap.mpr ⟨c, hc, List.mem_map.mpr
      ⟨u, List.mem_filter.mpr ⟨hu, by simp [huid]⟩, rfl⟩⟩, by simp [hcid]⟩
  have hne : ((store.conversations.flatMap fun c =>
      (store.users.filter fun u => u.id == c.user_id).map fun u => (c, u)).filter
      (fun r => r.1.id == input.conversation_id)).isEmpty = false := by
    rw [List.isEmpty_eq_false]
    exact List.ne_nil_of_mem hmem
  refine ⟨{ store with
      messages := (store.messages ++
        [{ id := store.nextMessageId, conversation_id := input.conversation_id,
           content := input.message, role := "user".data,
           sources := none, created_at := now }]) ++
        [{ id := store.nextMessageId + 1, conversation_id := input.conversation_id,
           content := aiResponseContent input.enable_research input.message,
           role := "assistant".data,
           sources := if input.enable_research then some mockResearchSources else none,
           created_at := now }],
      nextMessageId := store.nextMessageId + 1 + 1 },
    { id := store.nextMessageId + 1, conversation_id := input.conversation_id,
      content := aiResponseContent input.enable_research input.message,
      role := "assistant".data,
      sources := if input.enable_research then some mockResearchSources else none,
      created_at := now }, ?_, rfl, ?_, ?_⟩
  · unfold aiChatResearch
    rw [if_neg (by simp [hne])]
  · intro h'
    simp [h']
  · intro h'
    refine ⟨mockResearchSources, by simp [h'], by simp [mockResearchSources], ?_⟩
    intro s hs
    rcases List.mem_cons.mp hs with rfl | hs'
    · refine ⟨by simp [String.data], by simp [String.data], by simp [String.data]⟩
    · rcases List.mem_cons.mp hs' with rfl | hs''
      · refine ⟨by simp [String.data], by simp [String.data], by simp [String.data]⟩
      · cases hs''

/-- Witness for C9 with research disabled on an existing conversation. -/
theorem aiChatResearch_sources_research_flag_witness :
    (∃ c ∈ sampleStore.conversations, c.id = 5 ∧
        ∃ u ∈ sampleStore.users, u.id = c.user_id) ∧
      ∃ store2 msg,
        aiChatResearch 3 sampleStore ⟨5, "hi".data, false⟩ = (store2, Except.ok msg) ∧
        msg.role = "assistant".data ∧
        ((false : Bool) = false → msg.sources = none) ∧
        ((false : Bool) = true → ∃ srcs, msg.sources = some srcs ∧
          srcs ≠ [] ∧ ∀ s ∈ srcs, s.title ≠ [] ∧ s.url ≠ [] ∧ s.snippet ≠ []) :=
  ⟨⟨_, List.mem_cons_self _ _, rfl, _, List.mem_cons_self _ _, rfl⟩,
    aiChatResearch_sources_research_flag 3 sampleStore ⟨5, "hi".data, false⟩
      ⟨_, List.mem_cons_self _ _, rfl, _, List.mem_cons_self _ _, rfl⟩⟩

/-! ### C6: delete/update on a conversation not owned by the caller -/

/-- C6: for a conversation id `cid` and user `uid` such that no conversation
with id `cid` is owned by `uid` — whether the id does not exist at all or
the conversation belongs to another user — `deleteConversation` returns
`false` and leaves the store untouched, and `updateConversation` fails with
the single combined not-found-or-access-denied error.  The two sub-cases
are indistinguishable: both outcomes depend only on that hypothesis. -/
theorem delete_update_missing_or_foreign_conversation
    (now : Nat) (store : Store) (cid uid : Nat) (title : Option Str)
    (h : ∀ c ∈ store.conversations, ¬(c.id = cid ∧ c.user_id = uid)) :
    deleteConversation store cid uid = (store, false) ∧
    updateConversation now store ⟨cid, title⟩ uid =
      Except.error Err.conversationNotFoundOrAccessDenied := by
  have hfil : store.conversations.filter (fun c => c.id == cid && c.user_id == uid) = [] := by
    rw [List.filter_eq_nil_iff]
    intro c hc
    have := h c hc
    simp only [Bool.and_eq_true, beq_iff_eq]
    tauto
  constructor
  · have hrem : store.conversations.filter
        (fun c => !(c.id == cid && c.user_id == uid)) = store.conversations := by
      rw [List.filter_eq_self]
      intro c hc
      have := h c hc
      simp only [Bool.not_eq_eq_eq_not, Bool.not_true, Bool.and_eq_false_iff]
      by_cases h1 : c.id = cid
      · right; simpa using fun h2 => this ⟨h1, h2⟩
      · left; simpa using h1
    unfold deleteConversation
    rw [hfil, hrem]
    simp
  · unfold updateConversation
    have : store.conversations.filter (fun c => c.id == cid && c.user_id == uid) = [] := hfil
    rw [this]
    rfl

/-- Witness for C6: `sampleStore` holds conversation 5 owned by user 2;
user 1 owns no conversation with id 5 (foreign owner) — the same theorem
also covers an id absent altogether. -/
theorem delete_update_missing_or_foreign_conversation_witness :
    (∀ c ∈ sampleStore.conversations, ¬(c.id = 5 ∧ c.user_id = 1)) ∧
      deleteConversation sampleStore 5 1 = (sampleStore, false) ∧
      updateConversation 42 sampleStore ⟨5, some "New".data⟩ 1 =
        Except.error Err.conversationNotFoundOrAccessDenied :=
  ⟨by decide,
    delete_update_missing_or_foreign_conversation 42 sampleStore 5 1 (some "New".data)
      (by decide)⟩

/-! ### C5 and C10: session validation -/

/-- The joined-and-filtered rows `validateSession` selects from. -/
def sessionRows (now : Nat) (store : Store) (token : Str) :
    List (UserSession × User) :=
  (store.sessions.flatMap (fun s =>
    (store.users.filter (fun u => u.id == s.user_id)).map (fun u => (s, u)))).filter
    (fun r => r.1.session_token == token && decide (now < r.1.expires_at) && r.2.is_active)

theorem validateSession_eq_match (now : Nat) (store : Store) (token : Str) :
    validateSession now store token =
      match sessionRows now store token with
      | [] => none
      | r :: _ => some r.2 := rfl

/-- Characterization of membership in the selected session rows. -/
theorem mem_sessionRows {now : Nat} {store : Store} {token : Str}
    {r : UserSession × User} :
    r ∈ sessionRows now store token ↔
      r.1 ∈ store.sessions ∧ r.2 ∈ store.users ∧ r.2.id = r.1.user_id ∧
        r.1.session_token = token ∧ now < r.1.expires_at ∧ r.2.is_active = true := by
  unfold sessionRows
  rw [List.mem_filter, List.mem_flatMap]
  constructor
  · rintro ⟨⟨s, hs, hmap⟩, hpred⟩
    rw [List.mem_map] at hmap
    obtain ⟨u, hu, hru⟩ := hmap
    rw [List.mem_filter] at hu
    subst hru
    simp only [Bool.and_eq_true, beq_iff_eq, decide_eq_true_eq] at hpred hu
    exact ⟨hs, hu.1, hu.2, hpred.1.1, hpred.1.2, hpred.2⟩
  · rintro ⟨h1, h2, h3, h4, h5, h6⟩
    obtain ⟨s, u⟩ := r
    refine ⟨⟨s, h1, List.mem_map.mpr ⟨u, List.mem_filter.mpr ⟨h2, by simpa using h3⟩, rfl⟩⟩, ?_⟩
    simp only [Bool.and_eq_true, beq_iff_eq, decide_eq_true_eq]
    exact ⟨⟨h4, h5⟩, h6⟩

theorem validateSession_none_of_no_row (now : Nat) (store : Store) (token : Str)
    (h : sessionRows now store token = []) :
    validateSession now store token = none := by
  rw [validateSession_eq_match, h]

/-- C5: `validateSession` returns no user for an unknown token, an expired
token — including one expiring at exactly the present instant — and a token
whose owning user is inactive; and it returns `some u` exactly when a
stored session carries the token, expires strictly in the future, and its
owning user `u` is active. -/
theorem validateSession_spec (now : Nat) (store : Store) (token : Str)
    (htok : (store.sessions.map UserSession.session_token).Nodup)
    (hids : (store.users.map User.id).Nodup) :
    ((∀ s ∈ store.sessions, s.session_token ≠ token) →
       validateSession now store token = none) ∧
    ((∀ s ∈ store.sessions, s.session_token = token → s.expires_at ≤ now) →
       validateSession now store token = none) ∧
    ((∀ s ∈ store.sessions, s.session_token = token →
        ∀ u ∈ store.users, u.id = s.user_id → u.is_active = false) →
       validateSession now store token = none) ∧
    (∀ u, validateSession now store token = some u ↔
       ∃ s ∈ store.sessions, s.session_token = token ∧ now < s.expires_at ∧
         u ∈ store.users ∧ u.id = s.user_id ∧ u.is_active = true) := by
  refine ⟨?_, ?_, ?_, ?_⟩
  · intro h
    apply validateSession_none_of_no_row
    rw [List.eq_nil_iff_forall_not_mem]
    intro r hr
    obtain ⟨h1, _, _, h4, _, _⟩ := mem_sessionRows.mp hr
    exact h r.1 h1 h4
  · intro h
    apply validateSession_none_of_no_row
    rw [List.eq_nil_iff_forall_not_mem]
    intro r hr
    obtain ⟨h1, _, _, h4, h5, _⟩ := mem_sessionRows.mp hr
    exact absurd h5 (Nat.not_lt.mpr (h r.1 h1 h4))
  · intro h
    apply validateSession_none_of_no_row
    rw [List.eq_nil_iff_forall_not_mem]
    intro r hr
    obtain ⟨h1, h2, h3, h4, _, h6⟩ := mem_sessionRows.mp hr
    rw [h r.1 h1 h4 r.2 h2 h3] at h6
    cases h6
  · intro u
    constructor
    · intro hsome
      rw [validateSession_eq_match] at hsome
      rcases hrows : sessionRows now store token with _ | ⟨r, t⟩ <;> rw [hrows] at hsome
      · cases hsome
      · have hr : r ∈ sessionRows now store token := by rw [hrows]; exact List.mem_cons_self _ _
        obtain ⟨h1, h2, h3, h4, h5, h6⟩ := mem_sessionRows.mp hr
        have : r.2 = u := by cases hsome; rfl
        subst this
        exact ⟨r.1, h1, h4, h5, h2, h3, h6⟩
    · rintro ⟨s, hs, hstok, hexp, hu, huid, hact⟩
      have hmem : (s, u) ∈ sessionRows now store token :=
        mem_sessionRows.mpr ⟨hs, hu, huid, hstok, hexp, hact⟩
      rw [validateSession_eq_match]
      rcases hrows : sessionRows now store token with _ | ⟨r, t⟩
      · rw [hrows] at hmem; cases hmem
      · have hr : r ∈ sessionRows now store token := by rw [hrows]; exact List.mem_cons_self _ _
        obtain ⟨h1, h2, h3, h4, h5, h6⟩ := mem_sessionRows.mp hr
        have hseq : r.1 = s :=
          eq_of_nodup_key UserSession.session_token htok h1 hs (by rw [h4, hstok])
        have hueq : r.2 = u :=
          eq_of_nodup_key User.id hids h2 hu (by rw [h3, hseq, huid])
        show some r.2 = some u
        rw [hueq]

/-- Witness for C5: in `sampleStore`, token `tok` expires at time 100 for
active user 2; validation at time 50 returns that user, and the iff holds. -/
theorem validateSession_spec_witness :
    (sampleStore.sessions.map UserSession.session_token).Nodup ∧
    (sampleStore.users.map User.id).Nodup ∧
    (((∀ s ∈ sampleStore.sessions, s.session_token ≠ "tok".data) →
        validateSession 50 sampleStore "tok".data = none) ∧
     ((∀ s ∈ sampleStore.sessions, s.session_token = "tok".data → s.expires_at ≤ 50) →
        validateSession 50 sampleStore "tok".data = none) ∧
     ((∀ s ∈ sampleStore.sessions, s.session_token = "tok".data →
         ∀ u ∈ sampleStore.users, u.id = s.user_id → u.is_active = false) →
        validateSession 50 sampleStore "tok".data = none) ∧
     (∀ u, validateSession 50 sampleStore "tok".data = some u ↔
        ∃ s ∈ sampleStore.sessions, s.session_token = "tok".data ∧ 50 < s.expires_at ∧
          u ∈ sampleStore.users ∧ u.id = s.user_id ∧ u.is_active = true)) :=
  ⟨by decide, by decide, validateSession_spec 50 sampleStore "tok".data (by decide) (by decide)⟩

/-- C10: `getUserProfile` returns the complete stored user row — its
`password_hash` field included, unredacted — and `validateSession` likewise
returns a stored user row verbatim, so a holder of a user id or of a valid
session token receives the stored password hash through these public
procedures. -/
theorem profile_and_session_expose_password_hash
    (now : Nat) (store : Store) (token : Str)
    (hids : (store.users.map User.id).Nodup) :
    (∀ u ∈ store.users, getUserProfile store u.id = some u ∧
       (getUserProfile store u.id).map User.password_hash = some u.password_hash) ∧
    (∀ u, validateSession now store token = some u → u ∈ store.users) := by
  constructor
  · intro u hu
    have hfil : store.users.filter (fun x => x.id == u.id) = [u] :=
      filter_key_eq_singleton User.id hids hu
    have hg : getUserProfile store u.id = some u := by
      unfold getUserProfile
      rw [hfil]
    exact ⟨hg, by rw [hg]; rfl⟩
  · intro u hsome
    rw [validateSession_eq_match] at hsome
    rcases hrows : sessionRows now store token with _ | ⟨r, t⟩ <;> rw [hrows] at hsome
    · cases hsome
    · have hr : r ∈ sessionRows now store token := by rw [hrows]; exact List.mem_cons_self _ _
      obtain ⟨_, h2, _, _, _, _⟩ := mem_sessionRows.mp hr
      have : r.2 = u := by cases hsome; rfl
      exact this ▸ h2

/-- Witness for C10: user 2 of `sampleStore` has hash `abc:def`; the
profile lookup and a valid session both return it. -/
theorem profile_and_session_expose_password_hash_witness :
    (sampleStore.users.map User.id).Nodup ∧
    ((∀ u ∈ sampleStore.users, getUserProfile sampleStore u.id = some u ∧
        (getUserProfile sampleStore u.id).map User.password_hash = some u.password_hash) ∧
     (∀ u, validateSession 50 sampleStore "tok".data = some u → u ∈ sampleStore.users)) :=
  ⟨by decide, profile_and_session_expose_password_hash 50 sampleStore "tok".data (by decide)⟩

/-! ### C1 and C2: registration, password hashing, and login -/

/-- Unpacking a successful `createUser` call: the email was free, the user
was appended, and its fields are as inserted. -/
theorem createUser_ok_elim
    (pbkdf2 : Str → Str → Str) (salt : Str) (now : Nat)
    (store store2 : Store) (input : CreateUserInput) (u : User)
    (hok : createUser pbkdf2 salt now store input = Except.ok (store2, u)) :
    store.users.filter (fun x => x.email == input.email) = [] ∧
    store2.users = store.users ++ [u] ∧
    u.email = input.email ∧ u.is_active = true ∧
    u.password_hash = (match input.password with
      | some p => if p.isEmpty then none else some (salt ++ ':' :: pbkdf2 p salt)
      | none => none) := by
  unfold createUser at hok
  by_cases hg : 0 < (store.users.filter (fun x => x.email == input.email)).length
  · rw [if_pos hg] at hok
    cases hok
  · rw [if_neg hg] at hok
    have hfil : store.users.filter (fun x => x.email == input.email) = [] := by
      rcases h : store.users.filter (fun x => x.email == input.email) with _ | ⟨a, b⟩
      · exact h
      · rw [h] at hg
        exact absurd (by simp) hg
    simp only [Except.ok.injEq, Prod.mk.injEq] at hok
    obtain ⟨h1, h2⟩ := hok
    subst h1
    subst h2
    exact ⟨hfil, rfl, rfl, rfl, rfl⟩

/-- The lower-case hexadecimal alphabet produced by
`randomBytes(16).toString('hex')`. -/
def isLowerHexDigit (c : Char) : Bool := ("0123456789abcdef".data).contains c

/-- Splitting a stored `salt:hash` credential at its first colon, as a
verifier re-deriving the hash would. -/
def splitStored (stored : Str) : Str × Str :=
  (stored.takeWhile (fun c => c != ':'),
   (stored.dropWhile (fun c => c != ':')).tail)

theorem takeWhile_append_colon {b : Str} :
    ∀ {a : Str}, ':' ∉ a → (a ++ ':' :: b).takeWhile (fun c => c != ':') = a := by
  intro a
  induction a with
  | nil => intro _; simp [List.takeWhile_cons]
  | cons x t ih =>
    intro h
    have hx : (x != ':') = true := by
      simp only [bne_iff_ne, ne_eq]
      exact fun he => h (he ▸ List.mem_cons_self x t)
    rw [List.cons_append, List.takeWhile_cons, hx]
    simp only [if_true]
    rw [ih (fun hm => h (List.mem_cons_of_mem x hm))]

theorem dropWhile_append_colon {b : Str} :
    ∀ {a : Str}, ':' ∉ a → (a ++ ':' :: b).dropWhile (fun c => c != ':') = ':' :: b := by
  intro a
  induction a with
  | nil => intro _; simp [List.dropWhile_cons]
  | cons x t ih =>
    intro h
    have hx : (x != ':') = true := by
      simp only [bne_iff_ne, ne_eq]
      exact fun he => h (he ▸ List.mem_cons_self x t)
    rw [List.cons_append, List.dropWhile_cons, hx]
    simp only [if_true]
    rw [ih (fun hm => h (List.mem_cons_of_mem x hm))]

theorem splitStored_append {a b : Str} (h : ':' ∉ a) :
    splitStored (a ++ ':' :: b) = (a, b) := by
  unfold splitStored
  rw [takeWhile_append_colon h, dropWhile_append_colon h]
  rfl

/-- C2: a successful `createUser` with a non-empty password `p` stores a
`salt:hash` credential: splitting it at the first colon recovers the
32-character hex salt and the derived hash, re-deriving with the stored
salt and `p` reproduces the stored hash, the stored value is not the
plaintext `p`, and (under collision-freeness of the derivation at this
salt) every `q ≠ p` derives a different hash.  The key-derivation function
is the external `pbkdf2Sync(·, ·, 10000, 64, 'sha512')`, abstracted as
`pbkdf2` together with the properties used. -/
theorem createUser_password_hash_spec
    (pbkdf2 : Str → Str → Str) (salt : Str) (now : Nat)
    (store store2 : Store) (input : CreateUserInput) (p : Str) (u : User)
    (hp : input.password = some p) (hpne : p ≠ [])
    (hsaltlen : salt.length = 32)
    (hsalthex : ∀ c ∈ salt, isLowerHexDigit c = true)
    (hinj : ∀ q r : Str, pbkdf2 q salt = pbkdf2 r salt → q = r)
    (hfix : ∀ q s : Str, q ≠ s ++ ':' :: pbkdf2 q s)
    (hok : createUser pbkdf2 salt now store input = Except.ok (store2, u)) :
    ∃ stored, u.password_hash = some stored ∧
      stored = salt ++ ':' :: pbkdf2 p salt ∧
      stored ≠ p ∧
      splitStored stored = (salt, pbkdf2 p salt) ∧
      (splitStored stored).1.length = 32 ∧
      pbkdf2 p (splitStored stored).1 = (splitStored stored).2 ∧
      (∀ q : Str, q ≠ p → pbkdf2 q salt ≠ pbkdf2 p salt) := by
  have hcolon : ':' ∉ salt := fun hmem => by
    have := hsalthex ':' hmem
    simp [isLowerHexDigit] at this
  obtain ⟨-, -, -, -, hhash⟩ :=
    createUser_ok_elim pbkdf2 salt now store store2 input u hok
  have hpe : p.isEmpty = false := by
    cases p
    · exact absurd rfl hpne
    · rfl
  simp only [hp, hpe, Bool.false_eq_true, if_false] at hhash
  have hsplit := @splitStored_append salt (pbkdf2 p salt) hcolon
  refine ⟨salt ++ ':' :: pbkdf2 p salt, hhash, rfl, ?_, hsplit, ?_, ?_, ?_⟩
  · exact fun h => hfix p salt h.symm
  · rw [hsplit]
    exact hsaltlen
  · rw [hsplit]
  · intro q hq hc
    exact hq (hinj q p hc)

/-- A concrete stand-in for the external key-derivation function, used to
instantiate the abstract `pbkdf2` parameter in witnesses: prefix-marking is
injective in the password and admits no `salt:hash` fixed point. -/
def kdfStandIn : Str → Str → Str := fun q _ => 'x' :: q

/-- The empty store. -/
def emptyStore : Store :=
  { users := [], sessions := [], conversations := [], messages := [],
    nextUserId := 1, nextSessionId := 1, nextMessageId := 1 }

/-- Registration input used by the C1/C2 witnesses. -/
def c1Input : CreateUserInput :=
  { email := "a@x.com".data, password := some "pw1".data,
    display_name := "Alice".data, avatar_url := none, google_id := none }

/-- The 32-character lower-case hex salt used by the C1/C2 witnesses. -/
def c1Salt : Str := "00112233445566778899aabbccddeeff".data

/-- The user row `createUser` produces from `c1Input` over `emptyStore`
with `kdfStandIn` and `c1Salt`. -/
def c1User : User :=
  { id := 1, email := "a@x.com".data,
    password_hash := some (c1Salt ++ ':' :: 'x' :: "pw1".data),
    display_name := "Alice".data, avatar_url := none, google_id := none,
    is_active := true, created_at := 0, updated_at := 0 }

/-- The store after the C1/C2 witness registration. -/
def c1Store2 : Store :=
  { emptyStore with users := [c1User], nextUserId := 2 }

theorem kdfStandIn_no_fixed_point : ∀ q s : Str, q ≠ s ++ ':' :: kdfStandIn q s := by
  intro q s h
  have hl := congrArg List.length h
  simp [kdfStandIn, List.length_append] at hl
  omega

/-- Witness for C2 at a concrete registration. -/
theorem createUser_password_hash_spec_witness :
    c1Input.password = some "pw1".data ∧ ("pw1".data : Str) ≠ [] ∧
    c1Salt.length = 32 ∧ (∀ c ∈ c1Salt, isLowerHexDigit c = true) ∧
    createUser kdfStandIn c1Salt 0 emptyStore c1Input = Except.ok (c1Store2, c1User) ∧
    ∃ stored, c1User.password_hash = some stored ∧
      stored = c1Salt ++ ':' :: kdfStandIn "pw1".data c1Salt ∧
      stored ≠ "pw1".data ∧
      splitStored stored = (c1Salt, kdfStandIn "pw1".data c1Salt) ∧
      (splitStored stored).1.length = 32 ∧
      kdfStandIn "pw1".data (splitStored stored).1 = (splitStored stored).2 ∧
      (∀ q : Str, q ≠ "pw1".data → kdfStandIn q c1Salt ≠ kdfStandIn "pw1".data c1Salt) :=
  ⟨rfl, by decide, by decide, by decide, by rfl,
    createUser_password_hash_spec kdfStandIn c1Salt 0 emptyStore c1Store2 c1Input
      "pw1".data c1User rfl (by decide) (by decide) (by decide)
      (fun q r h => by simpa [kdfStandIn] using h)
      kdfStandIn_no_fixed_point (by rfl)⟩

/-- C1 is refuted by the code: after a successful `createUser` with a
non-empty password `p`, `loginUser` with the same email and password fails
with the invalid-credentials error, because `login_user.ts` compares the
stored `salt:hash` string to the plaintext password
(`user.password_hash !== input.password`) instead of re-deriving the hash.
The registration–login round trip promised by the specification never
succeeds for password users. -/
theorem loginUser_after_createUser_invalidCredentials
    (pbkdf2 : Str → Str → Str) (salt token p : Str) (now now2 : Nat)
    (store store2 : Store) (input : CreateUserInput) (u : User)
    (hp : input.password = some p) (hpne : p ≠ [])
    (hfix : ∀ q s : Str, q ≠ s ++ ':' :: pbkdf2 q s)
    (hok : createUser pbkdf2 salt now store input = Except.ok (store2, u)) :
    loginUser token now2 store2 { email := input.email, password := p } =
      Except.error Err.invalidCredentials := by
  obtain ⟨hfil, husers, hemail, hactive, hhash⟩ :=
    createUser_ok_elim pbkdf2 salt now store store2 input u hok
  have hpe : p.isEmpty = false := by
    cases p
    · exact absurd rfl hpne
    · rfl
  simp only [hp, hpe, Bool.false_eq_true, if_false] at hhash
  have hone : store2.users.filter
      (fun x => x.email == ({ email := input.email, password := p } : LoginInput).email) = [u] := by
    rw [husers, List.filter_append, hfil]
    simp [hemail]
  unfold loginUser
  rw [hone]
  have hnonempty : (salt ++ ':' :: pbkdf2 p salt : Str) ≠ [] := by simp
  have hfalsy : jsFalsyOptStr u.password_hash = false := by
    rw [hhash]
    unfold jsFalsyOptStr
    exact List.isEmpty_eq_false.mpr hnonempty
  have hcmp : (u.password_hash != some p) = true := by
    rw [hhash]
    simp only [bne_iff_ne, ne_eq, Option.some.injEq]
    exact fun h => hfix p salt h.symm
  simp only [hactive, Bool.not_true, Bool.false_eq_true, if_false, hfalsy, hcmp, if_true]

/-- Witness for C1: the concrete registration of `a@x.com` with password
`pw1`, followed by a login with the very same credentials, throws
invalid-credentials. -/
theorem loginUser_after_createUser_invalidCredentials_witness :
    c1Input.password = some "pw1".data ∧ ("pw1".data : Str) ≠ [] ∧
    createUser kdfStandIn c1Salt 0 emptyStore c1Input = Except.ok (c1Store2, c1User) ∧
    loginUser "tok".data 5 c1Store2 { email := c1Input.email, password := "pw1".data } =
      Except.error Err.invalidCredentials :=
  ⟨rfl, by decide, by rfl,
    loginUser_after_createUser_invalidCredentials kdfStandIn c1Salt "tok".data
      "pw1".data 0 5 emptyStore c1Store2 c1Input c1User rfl (by decide)
      kdfStandIn_no_fixed_point (by rfl)⟩

/-! ### C3: search characterization -/

/-- The concatenation of title matches and message matches built by
`searchConversations` before deduplication. -/
def searchMatches (store : Store) (userId : Nat) (pat : Str) : List Conversation :=
  store.conversations.filter (fun c => c.user_id == userId && sqlIlike c.title pat) ++
    ((store.conversations.flatMap (fun c =>
        (store.messages.filter (fun m => m.conversation_id == c.id)).map (fun m => (c, m)))).filter
      (fun r => r.1.user_id == userId && sqlIlike r.2.content pat)).map Prod.fst

theorem searchConversations_eq_sort (store : Store) (userId : Nat) (q : Str)
    (hq : (jsTrim q).isEmpty = false) :
    searchConversations store userId q =
      List.insertionSort convGE
        ((buildConvMap (searchMatches store userId ('%' :: (jsTrim q ++ ['%'])))).map
          Prod.snd) := by
  unfold searchConversations
  rw [if_neg (by simp [hq])]
  rfl

/-- Membership in the concatenated match list: exactly the user's
conversations whose title matches the pattern or that have a message whose
content matches it. -/
theorem mem_searchMatches {store : Store} {userId : Nat} {pat : Str} {c : Conversation} :
    c ∈ searchMatches store userId pat ↔
      c ∈ store.conversations ∧ c.user_id = userId ∧
        (sqlIlike c.title pat = true ∨
         ∃ m ∈ store.messages, m.conversation_id = c.id ∧ sqlIlike m.content pat = true) := by
  unfold searchMatches
  rw [List.mem_append, List.mem_filter, List.mem_map]
  constructor
  · rintro (⟨hc, hpred⟩ | ⟨r, hr, rfl⟩)
    · simp only [Bool.and_eq_true, beq_iff_eq] at hpred
      exact ⟨hc, hpred.1, Or.inl hpred.2⟩
    · rw [List.mem_filter] at hr
      obtain ⟨hrj, hpred⟩ := hr
      rw [List.mem_flatMap] at hrj
      obtain ⟨c', hc', hrr⟩ := hrj
      rw [List.mem_map] at hrr
      obtain ⟨m, hm, hrm⟩ := hrr
      subst hrm
      rw [List.mem_filter] at hm
      simp only [Bool.and_eq_true, beq_iff_eq] at hpred hm
      exact ⟨hc', hpred.1, Or.inr ⟨m, hm.1, hm.2, hpred.2⟩⟩
  · rintro ⟨hc, huid, hmatch | ⟨m, hm, hmc, hmatch⟩⟩
    · exact Or.inl ⟨hc, by simp [huid, hmatch]⟩
    · refine Or.inr ⟨(c, m), List.mem_filter.mpr ⟨?_, by simp [huid, hmatch]⟩, rfl⟩
      rw [List.mem_flatMap]
      exact ⟨c, hc, List.mem_map.mpr ⟨m, List.mem_filter.mpr ⟨hm, by simp [hmc]⟩, rfl⟩⟩

/-- Invariant of the deduplication map: every entry is keyed by its value's
id, and every value is a conversation of the ambient list `L`. -/
def GoodMap (L : List Conversation) (m : List (Nat × Conversation)) : Prop :=
  ∀ e ∈ m, e.1 = e.2.id ∧ e.2 ∈ L

theorem jsMapSet_goodMap {L : List Conversation} {m : List (Nat × Conversation)}
    {v : Conversation} (hm : GoodMap L m) (hv : v ∈ L) :
    GoodMap L (jsMapSet m v.id v) := by
  unfold jsMapSet
  split
  · intro e he
    rw [List.mem_map] at he
    obtain ⟨e', he', hee⟩ := he
    by_cases h : e'.1 = v.id
    · rw [if_pos (by simpa using h)] at hee
      subst hee
      exact ⟨rfl, hv⟩
    · rw [if_neg (by simpa using h)] at hee
      subst hee
      exact hm e' he'
  · intro e he
    rw [List.mem_append] at he
    rcases he with he | he
    · exact hm e he
    · rw [List.mem_singleton] at he
      subst he
      exact ⟨rfl, hv⟩

theorem jsMapSet_keys_nodup {m : List (Nat × Conversation)} {v : Conversation}
    (h : (m.map Prod.fst).Nodup) :
    ((jsMapSet m v.id v).map Prod.fst).Nodup := by
  unfold jsMapSet
  split
  case isTrue h' =>
    have heq : (m.map (fun e => if e.1 == v.id then (v.id, v) else e)).map Prod.fst =
        m.map Prod.fst := by
      rw [List.map_map]
      apply List.map_congr_left
      intro e _
      by_cases he : e.1 = v.id
      · simp [he]
      · simp [he]
    rw [heq]
    exact h
  case isFalse h' =>
    rw [List.map_append, List.nodup_append]
    refine ⟨h, List.nodup_singleton _, ?_⟩
    intro k hk hk'
    rw [List.map_singleton, List.mem_singleton] at hk'
    subst hk'
    rw [List.mem_map] at hk
    obtain ⟨e, he, hek⟩ := hk
    exact h' (List.any_eq_true.mpr ⟨e, he, by simp [hek]⟩)

theorem mem_values_jsMapSet {L : List Conversation} {m : List (Nat × Conversation)}
    {v : Conversation} (hGood : GoodMap L m)
    (hL : (L.map Conversation.id).Nodup) (hv : v ∈ L) {x : Conversation} :
    x ∈ (jsMapSet m v.id v).map Prod.snd ↔ x ∈ m.map Prod.snd ∨ x = v := by
  unfold jsMapSet
  split
  case isTrue hany =>
    constructor
    · intro hx
      rw [List.map_map, List.mem_map] at hx
      obtain ⟨e, he, hex⟩ := hx
      by_cases h : e.1 = v.id
      · right
        rw [← hex]
        simp [Function.comp, h]
      · left
        rw [List.mem_map]
        refine ⟨e, he, ?_⟩
        rw [← hex]
        simp [Function.comp, h]
    · intro hx
      rw [List.map_map, List.mem_map]
      rcases hx with hx | rfl
      · rw [List.mem_map] at hx
        obtain ⟨e, he, hex⟩ := hx
        refine ⟨e, he, ?_⟩
        by_cases h : e.1 = v.id
        · obtain ⟨hkey, hmem⟩ := hGood e he
          have : e.2 = v := eq_of_nodup_key Conversation.id hL hmem hv
            (by rw [← hkey, h])
          simp [Function.comp, h, ← hex, this]
        · simp [Function.comp, h, hex]
      · rw [List.any_eq_true] at hany
        obtain ⟨e, he, hek⟩ := hany
        refine ⟨e, he, ?_⟩
        simp only [beq_iff_eq] at hek
        simp [Function.comp, hek]
  case isFalse =>
    rw [List.map_append, List.mem_append, List.map_singleton, List.mem_singleton]

theorem buildConvMap_core {L : List Conversation}
    (hL : (L.map Conversation.id).Nodup) :
    ∀ (pairs : List Conversation) (m : List (Nat × Conversation)),
      (∀ c ∈ pairs, c ∈ L) → GoodMap L m → ((m.map Prod.fst).Nodup) →
      GoodMap L (pairs.foldl (fun acc c => jsMapSet acc c.id c) m) ∧
      (((pairs.foldl (fun acc c => jsMapSet acc c.id c) m).map Prod.fst).Nodup) ∧
      (∀ x, x ∈ (pairs.foldl (fun acc c => jsMapSet acc c.id c) m).map Prod.snd ↔
        x ∈ m.map Prod.snd ∨ x ∈ pairs) := by
  intro pairs
  induction pairs with
  | nil =>
    intro m _ hGood hkeys
    exact ⟨hGood, hkeys, fun x => by simp⟩
  | cons c rest ih =>
    intro m hmem hGood hkeys
    have hc : c ∈ L := hmem c (List.mem_cons_self c rest)
    have hrest : ∀ x ∈ rest, x ∈ L := fun x hx => hmem x (List.mem_cons_of_mem c hx)
    have hGood' : GoodMap L (jsMapSet m c.id c) := jsMapSet_goodMap hGood hc
    have hkeys' : ((jsMapSet m c.id c).map Prod.fst).Nodup := jsMapSet_keys_nodup hkeys
    obtain ⟨g1, g2, g3⟩ := ih (jsMapSet m c.id c) hrest hGood' hkeys'
    refine ⟨g1, g2, fun x => ?_⟩
    rw [List.foldl_cons]
    rw [g3 x, mem_values_jsMapSet hGood hL hc]
    rw [List.mem_cons]
    tauto

theorem buildConvMap_props {L : List Conversation}
    (hL : (L.map Conversation.id).Nodup) (pairs : List Conversation)
    (hmem : ∀ c ∈ pairs, c ∈ L) :
    GoodMap L (buildConvMap pairs) ∧
    ((buildConvMap pairs).map Prod.fst).Nodup ∧
    (∀ x, x ∈ (buildConvMap pairs).map Prod.snd ↔ x ∈ pairs) := by
  obtain ⟨g1, g2, g3⟩ := buildConvMap_core hL pairs []
    hmem (fun e he => absurd he (List.not_mem_nil e)) (by simp)
  exact ⟨g1, g2, fun x => by simpa using g3 x⟩

theorem goodMap_keys {L : List Conversation} {r : List (Nat × Conversation)}
    (h : GoodMap L r) :
    r.map Prod.fst = (r.map Prod.snd).map Conversation.id := by
  rw [List.map_map]
  apply List.map_congr_left
  intro e he
  exact (h e he).1

/-- C3 (amended): for a query that is non-empty after trimming,
`searchConversations` returns exactly the conversations owned by the user
whose title matches the `ILIKE` pattern `%trim(query)%` — `%` and `_`
inside the query acting as wildcards, backslash as escape — or that have a
message whose content matches it; each conversation appears once
(the returned ids have no duplicates) and the result is sorted by
`updated_at` descending.  Conversations of other users never appear. -/
theorem searchConversations_characterization
    (store : Store) (userId : Nat) (q : Str)
    (hnodup : (store.conversations.map Conversation.id).Nodup)
    (hq : jsTrim q ≠ []) :
    (∀ c, c ∈ searchConversations store userId q ↔
       c ∈ store.conversations ∧ c.user_id = userId ∧
         (sqlIlike c.title ('%' :: (jsTrim q ++ ['%'])) = true ∨
          ∃ m ∈ store.messages, m.conversation_id = c.id ∧
            sqlIlike m.content ('%' :: (jsTrim q ++ ['%'])) = true)) ∧
    ((searchConversations store userId q).map Conversation.id).Nodup ∧
    List.Sorted convGE (searchConversations store userId q) := by
  have hq' : (jsTrim q).isEmpty = false := by
    rw [List.isEmpty_eq_false]
    exact hq
  have heq := searchConversations_eq_sort store userId q hq'
  have hsub : ∀ c ∈ searchMatches store userId ('%' :: (jsTrim q ++ ['%'])),
      c ∈ store.conversations := fun c hc => (mem_searchMatches.mp hc).1
  obtain ⟨hGood, hkeys, hvals⟩ := buildConvMap_props hnodup
    (searchMatches store userId ('%' :: (jsTrim q ++ ['%']))) hsub
  have hperm : List.Perm
      (List.insertionSort convGE
        ((buildConvMap (searchMatches store userId ('%' :: (jsTrim q ++ ['%'])))).map
          Prod.snd))
      ((buildConvMap (searchMatches store userId ('%' :: (jsTrim q ++ ['%'])))).map
        Prod.snd) := List.perm_insertionSort convGE _
  refine ⟨?_, ?_, ?_⟩
  · intro c
    rw [heq, List.mem_insertionSort, hvals c]
    exact mem_searchMatches
  · rw [heq]
    have hvnodup : (((buildConvMap (searchMatches store userId
        ('%' :: (jsTrim q ++ ['%'])))).map Prod.snd).map Conversation.id).Nodup := by
      rw [← goodMap_keys hGood]
      exact hkeys
    exact ((hperm.map Conversation.id).nodup_iff).mpr hvnodup
  · rw [heq]
    exact List.sorted_insertionSort convGE _

/-- Witness for C3 (amended) on `sampleStore` with query `japan`
(case-insensitive match against a message of conversation 5). -/
theorem searchConversations_characterization_witness :
    (sampleStore.conversations.map Conversation.id).Nodup ∧
    jsTrim "japan".data ≠ [] ∧
    ((∀ c, c ∈ searchConversations sampleStore 2 "japan".data ↔
        c ∈ sampleStore.conversations ∧ c.user_id = 2 ∧
          (sqlIlike c.title ('%' :: (jsTrim "japan".data ++ ['%'])) = true ∨
           ∃ m ∈ sampleStore.messages, m.conversation_id = c.id ∧
             sqlIlike m.content ('%' :: (jsTrim "japan".data ++ ['%'])) = true)) ∧
     ((searchConversations sampleStore 2 "japan".data).map Conversation.id).Nodup ∧
     List.Sorted convGE (searchConversations sampleStore 2 "japan".data)) :=
  ⟨by decide, by decide,
    searchConversations_characterization sampleStore 2 "japan".data (by decide) (by decide)⟩

/-- The store of the C3 counterexample: one conversation titled `a` owned
by user 1, no messages. -/
def c3Store : Store :=
  { users := [], sessions := [],
    conversations := [{ id := 1, user_id := 1, title := "a".data,
                        created_at := 0, updated_at := 0 }],
    messages := [], nextUserId := 2, nextSessionId := 1, nextMessageId := 1 }

/-- Whether the first string occurs at the start of the second. -/
def leadsWith : Str → Str → Bool
  | [], _ => true
  | _ :: _, [] => false
  | a :: xs, b :: ys => (a == b) && leadsWith xs ys

/-- The spec-side predicate of claim C3, written from the claim's words:
case-insensitive substring containment of the query in the text. -/
def specContainsCI (needle hay : Str) : Bool :=
  (lowerStr hay).tails.any (leadsWith (lowerStr needle))

/-- Counterexample to C3 as stated: for the query `_` — non-empty after
trimming — `searchConversations` returns the conversation titled `a`,
although `a` does not contain `_` as a substring (case-insensitively) and
the store has no messages at all: the underscore acts as a SQL `LIKE`
wildcard, not as a literal character. -/
theorem searchConversations_substring_claim_counterexample :
    searchConversations c3Store 1 ['_'] =
      [{ id := 1, user_id := 1, title := "a".data, created_at := 0, updated_at := 0 }] ∧
    specContainsCI ['_'] "a".data = false ∧
    c3Store.messages = [] := by
  refine ⟨by decide, by decide, rfl⟩

end ByteSer
